import Mathlib

/-!
# k8s-operator-tracing-poc: reconcilers and the trace-injection hook

A shallow embedding of

* `controllers/childa_controller.go` (`ChildAReconciler.Reconcile`,
  `startSpanForChild`, `generateDeploymentFromChild`),
* `controllers/head_controller.go` (`HeadReconciler.Reconcile`,
  `startSpanForHead`, `generateChildFromHead`),
* `api/v1alpha1/head_webhook.go` (`Head.Default`),
* `api/v1alpha1/childa_types.go` (the `ChildA` schema).

The cluster client and the tracer are external collaborators.  They are
modelled as an explicit `World` (the stored objects, the log of mutating
client calls, the spans started and finished) together with an `Env` that
fixes which external calls fail and what the tracer answers.
-/

namespace TracingPoc

/-! ## Data model -/

/-- Go `map[string]string`, as an association list (first binding wins). -/
abbrev StringMap := List (String × String)

/-- Go map indexing `m[k]`: the zero value `""` when the key is absent. -/
def StringMap.index (m : StringMap) (k : String) : String :=
  (m.lookup k).getD ""

/-- The annotation key under which the trace context travels. -/
def traceKey : String := "uber-trace-id"

/-- Embeds `types.NamespacedName`. -/
structure NamespacedName where
  Namespace : String
  Name : String
deriving DecidableEq, Repr

/-- Embeds `metav1.OwnerReference`, as written by `SetControllerReference`. -/
structure OwnerReference where
  Kind : String
  Name : String
  UID : String
  Controller : Bool
  BlockOwnerDeletion : Bool
deriving DecidableEq, Repr

/-- The fields of `metav1.ObjectMeta` the program reads or writes. -/
structure ObjectMeta where
  Name : String
  Namespace : String
  UID : String := ""
  Annotations : StringMap := []
  DeletionTimestamp : Option Nat := none
  OwnerReferences : List OwnerReference := []
deriving DecidableEq, Repr

/-- Embeds `ChildASpec` (childa_types.go). -/
structure ChildASpec where
  Image : String := ""
deriving DecidableEq, Repr

/-- Embeds `ChildAStatus` (childa_types.go). -/
structure ChildAStatus where
  Ready : Bool := false
deriving DecidableEq, Repr

/-- Embeds `ChildA` (childa_types.go). -/
structure ChildA where
  meta : ObjectMeta
  Spec : ChildASpec := {}
  Status : ChildAStatus := {}
deriving DecidableEq, Repr

/-- Modelled from the spec: the declaration of `HeadSpec` (head_types.go) is
not among the sources; the reconciler reads `head.Spec.ChildA`, the desired
image of the owned ChildA (`spec.childImage`). -/
structure HeadSpec where
  ChildA : String := ""
deriving DecidableEq, Repr

/-- Modelled from the spec: the declaration of `HeadStatus` (head_types.go)
is not among the sources; the reconciler reads and writes `Status.Ready`. -/
structure HeadStatus where
  Ready : Bool := false
deriving DecidableEq, Repr

/-- Modelled from the spec: the declaration of `Head` (head_types.go) is not
among the sources; it has the same shape as `ChildA`: object metadata, a spec
and a status. -/
structure Head where
  meta : ObjectMeta
  Spec : HeadSpec := {}
  Status : HeadStatus := {}
deriving DecidableEq, Repr

/-- Embeds `corev1.Container`: name and image. -/
structure Container where
  Name : String
  Image : String
deriving DecidableEq, Repr

/-- The part of `apiv1.DeploymentSpec` that `generateDeploymentFromChild`
fills in: the selector labels, the pod template labels and its containers. -/
structure DeploymentSpec where
  MatchLabels : StringMap := []
  TemplateLabels : StringMap := []
  Containers : List Container := []
deriving DecidableEq, Repr

/-- Embeds `apiv1.DeploymentStatus`: the two `int32` counters the reconciler reads. -/
structure DeploymentStatus where
  Replicas : Int := 0
  ReadyReplicas : Int := 0
deriving DecidableEq, Repr

/-- Embeds `apiv1.Deployment`. -/
structure Deployment where
  meta : ObjectMeta
  Spec : DeploymentSpec := {}
  Status : DeploymentStatus := {}
deriving DecidableEq, Repr

/-- Embeds `ctrl.Request`: the identity of the object to reconcile. -/
abbrev Request := NamespacedName

/-! ## External collaborators: cluster client and tracer -/

/-- Errors returned by the client, the tracer and `SetControllerReference`.
`notFound` is the one recognised by `errors.IsNotFound`. -/
inductive Err where
  | notFound
  | other (msg : String)
deriving DecidableEq, Repr

/-- Embeds `errors.IsNotFound`. -/
def Err.IsNotFound : Err → Bool
  | .notFound => true
  | .other _ => false

/-- A mutating call issued to the cluster client. -/
inductive Call where
  | createChildA (c : ChildA)
  | createDeployment (d : Deployment)
  | updateChildAStatus (c : ChildA)
  | updateHeadStatus (h : Head)
deriving DecidableEq, Repr

/-- Whether a client call is a create. -/
def Call.isCreate : Call → Bool
  | .createChildA _ => true
  | .createDeployment _ => true
  | _ => false

/-- Whether a client call is a status update. -/
def Call.isStatusUpdate : Call → Bool
  | .updateChildAStatus _ => true
  | .updateHeadStatus _ => true
  | _ => false

/-- An opaque span context, as recovered by `tracer.Extract`. -/
abbrev SpanContext := String

/-- A span as handed out by `tracer.StartSpan`: its number, its operation
name and the parent context it was started under (`none` for a root span). -/
structure Span where
  id : Nat
  operation : String
  parent : Option SpanContext
deriving DecidableEq, Repr

/-- The behaviour of the environment during one call of the program: which
client calls fail for infrastructure reasons, whether `SetControllerReference`
fails, and what the tracer answers to `Extract` and `Inject`. -/
structure Env where
  getHeadErr : Option String := none
  getChildAErr : Option String := none
  getDeploymentErr : Option String := none
  createErr : Option String := none
  statusUpdateErr : Option String := none
  setControllerReferenceErr : Option String := none
  extract : StringMap → Except Err SpanContext
  inject : Span → Except Err StringMap

/-- The cluster and tracer state the program acts on. -/
structure World where
  heads : List Head := []
  childas : List ChildA := []
  deployments : List Deployment := []
  calls : List Call := []
  started : List Span := []
  finished : List Nat := []
deriving DecidableEq, Repr

/-- The identity of an object. -/
def ObjectMeta.key (m : ObjectMeta) : NamespacedName :=
  { Namespace := m.Namespace, Name := m.Name }

/-- Stored Head with the given identity, if any. -/
def World.findHead (w : World) (k : NamespacedName) : Option Head :=
  w.heads.find? (fun h => decide (h.meta.key = k))

/-- Stored ChildA with the given identity, if any. -/
def World.findChildA (w : World) (k : NamespacedName) : Option ChildA :=
  w.childas.find? (fun c => decide (c.meta.key = k))

/-- Stored Deployment with the given identity, if any. -/
def World.findDeployment (w : World) (k : NamespacedName) : Option Deployment :=
  w.deployments.find? (fun d => decide (d.meta.key = k))

/-- Embeds `client.Get` for a Head: an infrastructure error if the environment
injects one, `NotFound` if no object is stored under `k`. -/
def getHead (e : Env) (w : World) (k : NamespacedName) : Except Err Head :=
  match e.getHeadErr with
  | some msg => .error (.other msg)
  | none =>
    match w.findHead k with
    | some h => .ok h
    | none => .error .notFound

/-- Embeds `client.Get` for a ChildA. -/
def getChildA (e : Env) (w : World) (k : NamespacedName) : Except Err ChildA :=
  match e.getChildAErr with
  | some msg => .error (.other msg)
  | none =>
    match w.findChildA k with
    | some c => .ok c
    | none => .error .notFound

/-- Embeds `client.Get` for a Deployment. -/
def getDeployment (e : Env) (w : World) (k : NamespacedName) : Except Err Deployment :=
  match e.getDeploymentErr with
  | some msg => .error (.other msg)
  | none =>
    match w.findDeployment k with
    | some d => .ok d
    | none => .error .notFound

/-- Embeds `client.Create` of a Deployment: the call is logged; on success the
object is stored.  The reconciler calls it only after a `Get` of the same
identity answered `NotFound`. -/
def createDeployment (e : Env) (w : World) (d : Deployment) : World × Option Err :=
  let w1 := { w with calls := w.calls ++ [Call.createDeployment d] }
  match e.createErr with
  | some msg => (w1, some (.other msg))
  | none => ({ w1 with deployments := w1.deployments ++ [d] }, none)

/-- Embeds `client.Create` of a ChildA. -/
def createChildA (e : Env) (w : World) (c : ChildA) : World × Option Err :=
  let w1 := { w with calls := w.calls ++ [Call.createChildA c] }
  match e.createErr with
  | some msg => (w1, some (.other msg))
  | none => ({ w1 with childas := w1.childas ++ [c] }, none)

/-- Embeds `client.Status().Update` of a ChildA: the call is logged; on success the
status of the stored object with the same identity is replaced and nothing
else of it.  The reconciler calls it only on an object it has just fetched. -/
def updateChildAStatus (e : Env) (w : World) (c : ChildA) : World × Option Err :=
  let w1 := { w with calls := w.calls ++ [Call.updateChildAStatus c] }
  match e.statusUpdateErr with
  | some msg => (w1, some (.other msg))
  | none =>
    ({ w1 with childas := w1.childas.map (fun s =>
        if s.meta.key = c.meta.key then { s with Status := c.Status } else s) }, none)

/-- Embeds `client.Status().Update` of a Head. -/
def updateHeadStatus (e : Env) (w : World) (h : Head) : World × Option Err :=
  let w1 := { w with calls := w.calls ++ [Call.updateHeadStatus h] }
  match e.statusUpdateErr with
  | some msg => (w1, some (.other msg))
  | none =>
    ({ w1 with heads := w1.heads.map (fun s =>
        if s.meta.key = h.meta.key then { s with Status := h.Status } else s) }, none)

/-- Embeds `tracer.StartSpan`: a new span is recorded as started. -/
def startSpan (w : World) (operation : String) (parent : Option SpanContext) : World × Span :=
  let span : Span := { id := w.started.length, operation := operation, parent := parent }
  ({ w with started := w.started ++ [span] }, span)

/-- Embeds `span.Finish`. -/
def Span.Finish (w : World) (span : Span) : World :=
  { w with finished := w.finished ++ [span.id] }

/-- Embeds `controllerutil.SetControllerReference(owner, ...)`: the owner reference
it appends, marked as controller. -/
def controllerReference (kind : String) (owner : ObjectMeta) : OwnerReference :=
  { Kind := kind, Name := owner.Name, UID := owner.UID,
    Controller := true, BlockOwnerDeletion := true }

/-! ## controllers/childa_controller.go -/

/-- Embeds `startSpanForChild`: extracts the parent context from the ChildA's trace
annotation and starts a child span; an extraction error is returned and no
span is started. -/
def startSpanForChild (e : Env) (w : World) (child : ChildA) (operation : String) :
    World × Except Err Span :=
  let textCarrier : StringMap := [(traceKey, child.meta.Annotations.index traceKey)]
  match e.extract textCarrier with
  | .error err => (w, .error err)
  | .ok spanCtx =>
    let (w1, span) := startSpan w operation (some spanCtx)
    (w1, .ok span)

/-- Embeds `generateDeploymentFromChild`: the desired Deployment of a ChildA,
together with the error of `SetControllerReference`. -/
def generateDeploymentFromChild (e : Env) (child : ChildA) : Deployment × Option Err :=
  let deployment : Deployment :=
    { meta :=
        { Name := child.meta.Name
          Namespace := child.meta.Namespace
          Annotations := child.meta.Annotations }
      Spec :=
        { MatchLabels := [("app", "demo"), ("parent", child.meta.Name)]
          TemplateLabels := [("app", "demo"), ("parent", child.meta.Name)]
          Containers := [{ Name := "main", Image := child.Spec.Image }] } }
  match e.setControllerReferenceErr with
  | some msg => (deployment, some (.other msg))
  | none =>
    ({ deployment with
        meta := { deployment.meta with
          OwnerReferences :=
            deployment.meta.OwnerReferences ++ [controllerReference "ChildA" child.meta] } },
      none)

/-- The readiness test of `ChildAReconciler.Reconcile` on the Deployment
found: `Replicas > 0 && ReadyReplicas == Replicas`. -/
def isReady (existing : Deployment) : Bool :=
  decide (existing.Status.Replicas > 0) &&
    decide (existing.Status.ReadyReplicas = existing.Status.Replicas)

/-- Embeds `ChildAReconciler.Reconcile`: one reconcile pass for the ChildA named by
`req`.  Returns the new world and the error returned (`none` for `nil`). -/
def ChildAReconciler.Reconcile (e : Env) (w : World) (req : Request) : World × Option Err :=
  match getChildA e w req with
  | .error err =>
    if err.IsNotFound then (w, none) else (w, some err)
  | .ok child =>
    if child.meta.DeletionTimestamp.isSome then (w, none)
    else
      match generateDeploymentFromChild e child with
      | (_, some err) => (w, some err)
      | (expected, none) =>
        match getDeployment e w expected.meta.key with
        | .ok existing =>
          if isReady existing != child.Status.Ready then
            let child1 : ChildA := { child with Status := { Ready := isReady existing } }
            match startSpanForChild e w child1 ("child-ready-" ++ toString (isReady existing)) with
            | (w1, .error err) => (w1, some err)
            | (w1, .ok span) =>
              match updateChildAStatus e w1 child1 with
              | (w2, some err) => (w2, some err)
              | (w2, none) => (span.Finish w2, none)
          else (w, none)
        | .error err =>
          if err.IsNotFound then
            match startSpanForChild e w child "create-deploy" with
            | (w1, .error err) => (w1, some err)
            | (w1, .ok span) =>
              match createDeployment e w1 expected with
              | (w2, some err) => (w2, some err)
              | (w2, none) => (span.Finish w2, none)
          else (w, some err)

/-! ## controllers/head_controller.go -/

/-- Embeds `startSpanForHead`: as `startSpanForChild`, for a Head. -/
def startSpanForHead (e : Env) (w : World) (head : Head) (operation : String) :
    World × Except Err Span :=
  let textCarrier : StringMap := [(traceKey, head.meta.Annotations.index traceKey)]
  match e.extract textCarrier with
  | .error err => (w, .error err)
  | .ok spanCtx =>
    let (w1, span) := startSpan w operation (some spanCtx)
    (w1, .ok span)

/-- Embeds `generateChildFromHead`: the desired ChildA of a Head, together with the
error of `SetControllerReference`. -/
def generateChildFromHead (e : Env) (head : Head) : ChildA × Option Err :=
  let child : ChildA :=
    { meta :=
        { Name := head.meta.Name
          Namespace := head.meta.Namespace
          Annotations := head.meta.Annotations }
      Spec := { Image := head.Spec.ChildA } }
  match e.setControllerReferenceErr with
  | some msg => (child, some (.other msg))
  | none =>
    ({ child with
        meta := { child.meta with
          OwnerReferences :=
            child.meta.OwnerReferences ++ [controllerReference "Head" head.meta] } },
      none)

/-- Embeds `HeadReconciler.Reconcile`: one reconcile pass for the Head named by
`req`.  Returns the new world and the error returned (`none` for `nil`). -/
def HeadReconciler.Reconcile (e : Env) (w : World) (req : Request) : World × Option Err :=
  match getHead e w req with
  | .error err =>
    if err.IsNotFound then (w, none) else (w, some err)
  | .ok head =>
    if head.meta.DeletionTimestamp.isSome then (w, none)
    else
      match generateChildFromHead e head with
      | (_, some err) => (w, some err)
      | (expected, none) =>
        match getChildA e w expected.meta.key with
        | .ok existing =>
          if existing.Status.Ready != head.Status.Ready then
            let head1 : Head := { head with Status := { Ready := existing.Status.Ready } }
            match startSpanForHead e w head1 ("head-ready-" ++ toString head1.Status.Ready) with
            | (w1, .error err) => (w1, some err)
            | (w1, .ok span) =>
              match updateHeadStatus e w1 head1 with
              | (w2, some err) => (w2, some err)
              | (w2, none) => (span.Finish w2, none)
          else (w, none)
        | .error err =>
          if err.IsNotFound then
            match startSpanForHead e w head "create-child" with
            | (w1, .error err) => (w1, some err)
            | (w1, .ok span) =>
              match createChildA e w1 expected with
              | (w2, some err) => (w2, some err)
              | (w2, none) => (span.Finish w2, none)
          else (w, some err)

/-! ## api/v1alpha1/head_webhook.go -/

/-- Embeds `Head.Default`: the defaulting hook.  Looks up a stored copy of the Head;
when there is none it starts the root span `get-head`, injects its context
into a text carrier and assigns the Head's annotations.  Returns the new
world and the Head as left by the hook. -/
def Head.Default (e : Env) (w : World) (r : Head) : World × Head :=
  match getHead e w r.meta.key with
  | .ok _ => (w, r)
  | .error err =>
    if err.IsNotFound then
      let (w1, span) := startSpan w "get-head" none
      match e.inject span with
      | .error _ => (w1, r)
      | .ok textCarrier =>
        (w1, { r with meta := { r.meta with
                Annotations := [(traceKey, textCarrier.index traceKey)] } })
    else (w, r)

/-- Repeated calls of `Head.Default` on the same Head, threading the world. -/
def DefaultN (e : Env) : Nat → World → Head → World × Head
  | 0, w, r => (w, r)
  | n + 1, w, r =>
    let (w1, r1) := Head.Default e w r
    DefaultN e n w1 r1

/-! ## Environments and observations used in the statements -/

/-- Every client call, every `SetControllerReference` and every tracer call
succeeds (a `Get` may still answer `NotFound`). -/
def Env.AllSucceed (e : Env) : Prop :=
  e.getHeadErr = none ∧ e.getChildAErr = none ∧ e.getDeploymentErr = none ∧
  e.createErr = none ∧ e.statusUpdateErr = none ∧ e.setControllerReferenceErr = none ∧
  (∀ c, ∃ ctx, e.extract c = .ok ctx) ∧ (∀ s, ∃ c, e.inject s = .ok c)

/-- The environment in which nothing fails: the tracer reads the parent
context off the carrier and injects a context named after the span number. -/
def okEnv : Env :=
  { extract := fun c => .ok (c.index traceKey)
    inject := fun s => .ok [(traceKey, "trace-" ++ toString s.id)] }

/-- The client calls issued during a pass from `w` to `w1`: the calls logged
in `w1` beyond those already logged in `w`. -/
def newCalls (w w1 : World) : List Call :=
  w1.calls.drop w.calls.length

/-- The image of the container named `main` of a Deployment, if it has one. -/
def Deployment.mainImage (d : Deployment) : Option String :=
  (d.Spec.Containers.find? (fun c => c.Name == "main")).map (fun c => c.Image)

/-! ## Sample objects and environments -/

/-- The identity `default/demo`. -/
def demoKey : NamespacedName := { Namespace := "default", Name := "demo" }

/-- Object metadata of `default/demo`, carrying a trace annotation. -/
def demoMeta : ObjectMeta :=
  { Name := "demo", Namespace := "default", UID := "u1",
    Annotations := [("uber-trace-id", "abc:1:0:1")] }

/-- A Deployment `default/demo` running image `img` with the given counters. -/
def demoDeployment (img : String) (replicas ready : Int) : Deployment :=
  { meta := demoMeta
    Spec := { Containers := [{ Name := "main", Image := img }] }
    Status := { Replicas := replicas, ReadyReplicas := ready } }

/-- A ChildA `default/demo` wanting image `img`, with the given status. -/
def demoChild (img : String) (ready : Bool) : ChildA :=
  { meta := demoMeta, Spec := { Image := img }, Status := { Ready := ready } }

/-- A Head `default/demo` wanting child image `img`, with the given status. -/
def demoHead (img : String) (ready : Bool) : Head :=
  { meta := demoMeta, Spec := { ChildA := img }, Status := { Ready := ready } }

/-- A Head `default/demo` being deleted that reports ready. -/
def deletingHead : Head :=
  { demoHead "x" true with meta := { demoMeta with DeletionTimestamp := some 7 } }

/-- A ChildA `default/demo` being deleted that is not ready. -/
def deletingChild : ChildA :=
  { demoChild "x" false with meta := { demoMeta with DeletionTimestamp := some 7 } }

/-- A cluster in which Head and ChildA `default/demo` are being deleted, the
ChildA is not ready, the Head reports ready and no Deployment exists. -/
def deletingWorld : World :=
  { heads := [deletingHead], childas := [deletingChild] }

/-- A cluster holding a ChildA `default/demo` that reports ready although its
Deployment does not exist (for instance after the Deployment was removed). -/
def orphanReadyWorld : World :=
  { childas := [demoChild "nginx" true] }

/-- A cluster in which the ChildA `default/demo` wants image `nginx:2` while
its Deployment already exists and runs `nginx:1`. -/
def staleImageWorld : World :=
  { childas := [demoChild "nginx:2" false], deployments := [demoDeployment "nginx:1" 0 0] }

/-- The Head `default/demo` as first submitted, without any annotation. -/
def freshHead : Head :=
  { meta := { Name := "demo", Namespace := "default", UID := "u1" }
    Spec := { ChildA := "x" } }

/-- An environment in which the client never fails but `tracer.Extract`
finds no span context in any carrier. -/
def noParentEnv : Env :=
  { extract := fun _ => .error (.other "opentracing: SpanContext not found in Extract carrier")
    inject := fun s => .ok [(traceKey, "trace-" ++ toString s.id)] }

/-- An environment in which everything succeeds except `client.Create`. -/
def createFailsEnv : Env :=
  { okEnv with createErr := some "connection refused" }

/-- An environment in which everything succeeds except the status update. -/
def updateFailsEnv : Env :=
  { okEnv with statusUpdateErr := some "conflict" }

/-- A Head `default/demo` submitted for creation with an annotation of its own. -/
def annotatedHead : Head :=
  { meta :=
      { Name := "demo", Namespace := "default", UID := "u1",
        Annotations := [("team", "payments")] }
    Spec := { ChildA := "x" } }

/-! ## Auxiliary facts about the store -/

theorem findChildA_key {w : World} {k : NamespacedName} {c : ChildA}
    (h : w.findChildA k = some c) : c.meta.key = k := by
  have := List.find?_some h
  simpa using this

theorem findHead_key {w : World} {k : NamespacedName} {c : Head}
    (h : w.findHead k = some c) : c.meta.key = k := by
  have := List.find?_some h
  simpa using this

theorem find_setChildAStatus (l : List ChildA) (k k1 : NamespacedName) (st : ChildAStatus) :
    (l.map (fun s => if s.meta.key = k1 then { s with Status := st } else s)).find?
        (fun c => decide (c.meta.key = k))
      = (l.find? (fun c => decide (c.meta.key = k))).map
          (fun s => if s.meta.key = k1 then { s with Status := st } else s) := by
  rw [List.find?_map]
  congr 2
  funext s
  by_cases hk1 : s.meta.key = k1 <;> simp [hk1]

theorem find_setHeadStatus (l : List Head) (k k1 : NamespacedName) (st : HeadStatus) :
    (l.map (fun s => if s.meta.key = k1 then { s with Status := st } else s)).find?
        (fun c => decide (c.meta.key = k))
      = (l.find? (fun c => decide (c.meta.key = k))).map
          (fun s => if s.meta.key = k1 then { s with Status := st } else s) := by
  rw [List.find?_map]
  congr 2
  funext s
  by_cases hk1 : s.meta.key = k1 <;> simp [hk1]

/-! ## The passes of the ChildA reconciler, path by path -/

theorem generateDeploymentFromChild_ok (e : Env) (child : ChildA)
    (h : e.setControllerReferenceErr = none) :
    ∃ expected, generateDeploymentFromChild e child = (expected, none) ∧
      expected.meta.key = child.meta.key ∧
      expected.Spec.Containers = [{ Name := "main", Image := child.Spec.Image }] ∧
      expected.Status = {} := by
  simp [generateDeploymentFromChild, h, ObjectMeta.key]

theorem childA_pass_unchanged (e : Env) (w : World) (req : Request) (child : ChildA)
    (existing : Deployment)
    (hget : getChildA e w req = .ok child)
    (hdel : child.meta.DeletionTimestamp = none)
    (hown : e.setControllerReferenceErr = none)
    (hdep : getDeployment e w child.meta.key = .ok existing)
    (heq : isReady existing = child.Status.Ready) :
    ChildAReconciler.Reconcile e w req = (w, none) := by
  obtain ⟨expected, hgen, hk, -, -⟩ := generateDeploymentFromChild_ok e child hown
  simp only [ChildAReconciler.Reconcile, hget, hdel, hgen, hk, hdep, heq]
  simp

theorem childA_pass_update (e : Env) (w : World) (req : Request) (child : ChildA)
    (existing : Deployment) (ctx : SpanContext)
    (hget : getChildA e w req = .ok child)
    (hdel : child.meta.DeletionTimestamp = none)
    (hown : e.setControllerReferenceErr = none)
    (hdep : getDeployment e w child.meta.key = .ok existing)
    (hne : (isReady existing != child.Status.Ready) = true)
    (hx : e.extract [(traceKey, child.meta.Annotations.index traceKey)] = .ok ctx) :
    ChildAReconciler.Reconcile e w req =
      match updateChildAStatus e
          { w with started := w.started ++
              [{ id := w.started.length
                 operation := "child-ready-" ++ toString (isReady existing)
                 parent := some ctx }] }
          { child with Status := { Ready := isReady existing } } with
      | (w2, some err) => (w2, some err)
      | (w2, none) => ({ w2 with finished := w2.finished ++ [w.started.length] }, none) := by
  obtain ⟨expected, hgen, hk, -, -⟩ := generateDeploymentFromChild_ok e child hown
  simp only [ChildAReconciler.Reconcile, hget, hdel, hgen, hk, hdep, hne, startSpanForChild, hx,
    startSpan, Span.Finish]
  simp

theorem childA_pass_create (e : Env) (w : World) (req : Request) (child : ChildA)
    (ctx : SpanContext)
    (hget : getChildA e w req = .ok child)
    (hdel : child.meta.DeletionTimestamp = none)
    (hown : e.setControllerReferenceErr = none)
    (hdep : getDeployment e w child.meta.key = .error .notFound)
    (hx : e.extract [(traceKey, child.meta.Annotations.index traceKey)] = .ok ctx) :
    ChildAReconciler.Reconcile e w req =
      match createDeployment e
          { w with started := w.started ++
              [{ id := w.started.length, operation := "create-deploy", parent := some ctx }] }
          (generateDeploymentFromChild e child).1 with
      | (w2, some err) => (w2, some err)
      | (w2, none) => ({ w2 with finished := w2.finished ++ [w.started.length] }, none) := by
  obtain ⟨expected, hgen, hk, -, -⟩ := generateDeploymentFromChild_ok e child hown
  simp only [ChildAReconciler.Reconcile, hget, hdel, hgen, hk, hdep, startSpanForChild, hx,
    startSpan, Span.Finish, Err.IsNotFound]
  simp

theorem childA_pass_extract_fails (e : Env) (w : World) (req : Request) (child : ChildA)
    (r : Except Err Deployment) (err : Err)
    (hget : getChildA e w req = .ok child)
    (hdel : child.meta.DeletionTimestamp = none)
    (hown : e.setControllerReferenceErr = none)
    (hdep : getDeployment e w child.meta.key = r)
    (hdue : r = .error .notFound ∨
      ∃ existing, r = .ok existing ∧ (isReady existing != child.Status.Ready) = true)
    (hx : e.extract [(traceKey, child.meta.Annotations.index traceKey)] = .error err) :
    ChildAReconciler.Reconcile e w req = (w, some err) := by
  obtain ⟨expected, hgen, hk, -, -⟩ := generateDeploymentFromChild_ok e child hown
  rcases hdue with h | ⟨existing, h, hne⟩
  · subst h
    simp only [ChildAReconciler.Reconcile, hget, hdel, hgen, hk, hdep, startSpanForChild, hx,
      Err.IsNotFound]
    simp
  · subst h
    simp only [ChildAReconciler.Reconcile, hget, hdel, hgen, hk, hdep, hne, startSpanForChild, hx]
    simp

theorem childA_pass_absent (e : Env) (w : World) (req : Request)
    (hget : getChildA e w req = .error .notFound) :
    ChildAReconciler.Reconcile e w req = (w, none) := by
  simp [ChildAReconciler.Reconcile, hget, Err.IsNotFound]

theorem childA_pass_deleted (e : Env) (w : World) (req : Request) (child : ChildA)
    (hget : getChildA e w req = .ok child)
    (hdel : child.meta.DeletionTimestamp.isSome = true) :
    ChildAReconciler.Reconcile e w req = (w, none) := by
  simp [ChildAReconciler.Reconcile, hget, hdel]

/-! ## The passes of the Head reconciler, path by path -/

theorem generateChildFromHead_ok (e : Env) (head : Head)
    (h : e.setControllerReferenceErr = none) :
    generateChildFromHead e head =
      ({ meta :=
          { Name := head.meta.Name
            Namespace := head.meta.Namespace
            Annotations := head.meta.Annotations
            OwnerReferences := [controllerReference "Head" head.meta] }
         Spec := { Image := head.Spec.ChildA } }, none) ∧
    (generateChildFromHead e head).1.meta.key = head.meta.key := by
  simp [generateChildFromHead, h, ObjectMeta.key]

theorem head_pass_unchanged (e : Env) (w : World) (req : Request) (head : Head)
    (existing : ChildA)
    (hget : getHead e w req = .ok head)
    (hdel : head.meta.DeletionTimestamp = none)
    (hown : e.setControllerReferenceErr = none)
    (hch : getChildA e w head.meta.key = .ok existing)
    (heq : existing.Status.Ready = head.Status.Ready) :
    HeadReconciler.Reconcile e w req = (w, none) := by
  obtain ⟨hgen, hk⟩ := generateChildFromHead_ok e head hown
  rw [hgen] at hk
  simp only [HeadReconciler.Reconcile, hget, hdel, hgen, hk, hch, heq]
  simp

theorem head_pass_update (e : Env) (w : World) (req : Request) (head : Head)
    (existing : ChildA) (ctx : SpanContext)
    (hget : getHead e w req = .ok head)
    (hdel : head.meta.DeletionTimestamp = none)
    (hown : e.setControllerReferenceErr = none)
    (hch : getChildA e w head.meta.key = .ok existing)
    (hne : (existing.Status.Ready != head.Status.Ready) = true)
    (hx : e.extract [(traceKey, head.meta.Annotations.index traceKey)] = .ok ctx) :
    HeadReconciler.Reconcile e w req =
      match updateHeadStatus e
          { w with started := w.started ++
              [{ id := w.started.length
                 operation := "head-ready-" ++ toString existing.Status.Ready
                 parent := some ctx }] }
          { head with Status := { Ready := existing.Status.Ready } } with
      | (w2, some err) => (w2, some err)
      | (w2, none) => ({ w2 with finished := w2.finished ++ [w.started.length] }, none) := by
  obtain ⟨hgen, hk⟩ := generateChildFromHead_ok e head hown
  rw [hgen] at hk
  simp only [HeadReconciler.Reconcile, hget, hdel, hgen, hk, hch, hne, startSpanForHead, hx,
    startSpan, Span.Finish]
  simp

theorem head_pass_create (e : Env) (w : World) (req : Request) (head : Head)
    (ctx : SpanContext)
    (hget : getHead e w req = .ok head)
    (hdel : head.meta.DeletionTimestamp = none)
    (hown : e.setControllerReferenceErr = none)
    (hch : getChildA e w head.meta.key = .error .notFound)
    (hx : e.extract [(traceKey, head.meta.Annotations.index traceKey)] = .ok ctx) :
    HeadReconciler.Reconcile e w req =
      match createChildA e
          { w with started := w.started ++
              [{ id := w.started.length, operation := "create-child", parent := some ctx }] }
          (generateChildFromHead e head).1 with
      | (w2, some err) => (w2, some err)
      | (w2, none) => ({ w2 with finished := w2.finished ++ [w.started.length] }, none) := by
  obtain ⟨hgen, hk⟩ := generateChildFromHead_ok e head hown
  rw [hgen] at hk
  simp only [HeadReconciler.Reconcile, hget, hdel, hgen, hk, hch, startSpanForHead, hx,
    startSpan, Span.Finish, Err.IsNotFound]
  simp

theorem head_pass_extract_fails (e : Env) (w : World) (req : Request) (head : Head)
    (r : Except Err ChildA) (err : Err)
    (hget : getHead e w req = .ok head)
    (hdel : head.meta.DeletionTimestamp = none)
    (hown : e.setControllerReferenceErr = none)
    (hch : getChildA e w head.meta.key = r)
    (hdue : r = .error .notFound ∨
      ∃ existing, r = .ok existing ∧ (existing.Status.Ready != head.Status.Ready) = true)
    (hx : e.extract [(traceKey, head.meta.Annotations.index traceKey)] = .error err) :
    HeadReconciler.Reconcile e w req = (w, some err) := by
  obtain ⟨hgen, hk⟩ := generateChildFromHead_ok e head hown
  rw [hgen] at hk
  rcases hdue with h | ⟨existing, h, hne⟩
  · subst h
    simp only [HeadReconciler.Reconcile, hget, hdel, hgen, hk, hch, startSpanForHead, hx,
      Err.IsNotFound]
    simp
  · subst h
    simp only [HeadReconciler.Reconcile, hget, hdel, hgen, hk, hch, hne, startSpanForHead, hx]
    simp

theorem head_pass_deleted (e : Env) (w : World) (req : Request) (head : Head)
    (hget : getHead e w req = .ok head)
    (hdel : head.meta.DeletionTimestamp.isSome = true) :
    HeadReconciler.Reconcile e w req = (w, none) := by
  simp [HeadReconciler.Reconcile, hget, hdel]

/-! ## Reading the store through the client -/

theorem getChildA_found {e : Env} {w : World} {k : NamespacedName} {c : ChildA}
    (he : e.getChildAErr = none) (h : w.findChildA k = some c) :
    getChildA e w k = .ok c := by
  simp [getChildA, he, h]

theorem getChildA_absent {e : Env} {w : World} {k : NamespacedName}
    (he : e.getChildAErr = none) (h : w.findChildA k = none) :
    getChildA e w k = .error .notFound := by
  simp [getChildA, he, h]

theorem getHead_found {e : Env} {w : World} {k : NamespacedName} {c : Head}
    (he : e.getHeadErr = none) (h : w.findHead k = some c) :
    getHead e w k = .ok c := by
  simp [getHead, he, h]

theorem getDeployment_found {e : Env} {w : World} {k : NamespacedName} {d : Deployment}
    (he : e.getDeploymentErr = none) (h : w.findDeployment k = some d) :
    getDeployment e w k = .ok d := by
  simp [getDeployment, he, h]

theorem getDeployment_absent {e : Env} {w : World} {k : NamespacedName}
    (he : e.getDeploymentErr = none) (h : w.findDeployment k = none) :
    getDeployment e w k = .error .notFound := by
  simp [getDeployment, he, h]

theorem okEnv_allSucceed : okEnv.AllSucceed := by
  refine ⟨rfl, rfl, rfl, rfl, rfl, rfl, ?_, ?_⟩
  · intro c
    exact ⟨_, rfl⟩
  · intro s
    exact ⟨_, rfl⟩

theorem newCalls_self (w : World) : newCalls w w = [] := by
  simp [newCalls]

/-! ## The ChildA reconciler never writes a Head -/

theorem startSpanForChild_heads {e : Env} {w w1 : World} {child : ChildA} {op : String}
    {r : Except Err Span} (h : startSpanForChild e w child op = (w1, r)) :
    w1.heads = w.heads := by
  simp only [startSpanForChild, startSpan] at h
  split at h <;> simp only [Prod.mk.injEq] at h <;> rw [← h.1]

theorem updateChildAStatus_heads {e : Env} {w w1 : World} {c : ChildA} {r : Option Err}
    (h : updateChildAStatus e w c = (w1, r)) : w1.heads = w.heads := by
  simp only [updateChildAStatus] at h
  split at h <;> simp only [Prod.mk.injEq] at h <;> rw [← h.1]

theorem createDeployment_heads {e : Env} {w w1 : World} {d : Deployment} {r : Option Err}
    (h : createDeployment e w d = (w1, r)) : w1.heads = w.heads := by
  simp only [createDeployment] at h
  split at h <;> simp only [Prod.mk.injEq] at h <;> rw [← h.1]

theorem childA_reconcile_heads (e : Env) (w : World) (req : Request) :
    (ChildAReconciler.Reconcile e w req).1.heads = w.heads := by
  unfold ChildAReconciler.Reconcile
  dsimp only
  repeat' split
  all_goals try simp only [Span.Finish]
  all_goals first
    | rfl
    | exact startSpanForChild_heads (by assumption)
    | exact (updateChildAStatus_heads (by assumption)).trans
        (startSpanForChild_heads (by assumption))
    | exact (createDeployment_heads (by assumption)).trans
        (startSpanForChild_heads (by assumption))

/-! ## Upward propagation (C1) -/

/-- C1. When the ChildA named by the request is stored without a deletion
marker, a Deployment with the same identity is stored and every external call
succeeds, one pass of `ChildAReconciler.Reconcile` returns no error and leaves
the stored ChildA with `Status.Ready` equal to
`Replicas > 0 && ReadyReplicas == Replicas` of that Deployment; so counters
3/3 give `true` and counters 3/1 give `false`. -/
theorem childA_reconcile_propagates_readiness (e : Env) (w : World) (req : Request)
    (child : ChildA) (d : Deployment)
    (he : e.AllSucceed)
    (hc : w.findChildA req = some child)
    (hdel : child.meta.DeletionTimestamp = none)
    (hd : w.findDeployment req = some d) :
    (ChildAReconciler.Reconcile e w req).2 = none ∧
    ((ChildAReconciler.Reconcile e w req).1.findChildA req).map (fun c => c.Status.Ready)
      = some (decide (d.Status.Replicas > 0 ∧ d.Status.ReadyReplicas = d.Status.Replicas)) ∧
    (d.Status.Replicas = 3 → d.Status.ReadyReplicas = 3 →
      ((ChildAReconciler.Reconcile e w req).1.findChildA req).map (fun c => c.Status.Ready)
        = some true) ∧
    (d.Status.Replicas = 3 → d.Status.ReadyReplicas = 1 →
      ((ChildAReconciler.Reconcile e w req).1.findChildA req).map (fun c => c.Status.Ready)
        = some false) := by
  obtain ⟨-, h2, h3, -, h5, h6, h7, -⟩ := he
  have hkey : child.meta.key = req := findChildA_key hc
  have hget := getChildA_found h2 hc
  have hdep : getDeployment e w child.meta.key = .ok d := by
    rw [hkey]
    exact getDeployment_found h3 hd
  have main : (ChildAReconciler.Reconcile e w req).2 = none ∧
      ((ChildAReconciler.Reconcile e w req).1.findChildA req).map (fun c => c.Status.Ready)
        = some (isReady d) := by
    by_cases hne : (isReady d != child.Status.Ready) = true
    · obtain ⟨ctx, hctx⟩ := h7 [(traceKey, child.meta.Annotations.index traceKey)]
      rw [childA_pass_update e w req child d ctx hget hdel h6 hdep hne hctx]
      simp only [updateChildAStatus, h5, World.findChildA, find_setChildAStatus]
      simp only [World.findChildA] at hc
      simp [hc, hkey]
    · have heq : isReady d = child.Status.Ready := by simpa using hne
      rw [childA_pass_unchanged e w req child d hget hdel h6 hdep heq]
      simp [hc, heq]
  have hr : isReady d
      = decide (d.Status.Replicas > 0 ∧ d.Status.ReadyReplicas = d.Status.Replicas) := by
    simp [isReady]
  refine ⟨main.1, ?_, ?_, ?_⟩
  · rw [main.2, hr]
  · intro a b
    rw [main.2, hr, a, b]
    rfl
  · intro a b
    rw [main.2, hr, a, b]
    rfl

/-- Witness for C1: a ChildA with `Ready = false` whose Deployment has
counters 3/3. -/
theorem childA_reconcile_propagates_readiness_witness :
    ((ChildAReconciler.Reconcile okEnv
        { childas := [demoChild "nginx" false], deployments := [demoDeployment "nginx" 3 3] }
        demoKey).1.findChildA demoKey).map (fun c => c.Status.Ready) = some true :=
  (childA_reconcile_propagates_readiness okEnv
    { childas := [demoChild "nginx" false], deployments := [demoDeployment "nginx" 3 3] }
    demoKey (demoChild "nginx" false) (demoDeployment "nginx" 3 3)
    okEnv_allSucceed (by decide) (by decide) (by decide)).2.2.1 (by decide) (by decide)

/-! ## Convergence of the Head loop (C2) -/

/-- C2. For a stored Head without deletion marker whose ChildA is not stored,
with every external call succeeding, one pass of `HeadReconciler.Reconcile`
returns no error and issues exactly one client call, the create of a ChildA
with the Head's namespace and name, `Spec.Image` equal to the Head's
`Spec.ChildA`, a single controller owner reference naming that Head, and the
Head's annotations (so its trace annotation) copied verbatim; afterwards that
ChildA is stored. -/
theorem head_reconcile_creates_child (e : Env) (w : World) (req : Request) (head : Head)
    (he : e.AllSucceed)
    (hh : w.findHead req = some head)
    (hdel : head.meta.DeletionTimestamp = none)
    (hc : w.findChildA head.meta.key = none) :
    ∃ c : ChildA,
      newCalls w (HeadReconciler.Reconcile e w req).1 = [Call.createChildA c] ∧
      (HeadReconciler.Reconcile e w req).2 = none ∧
      c.meta.Namespace = head.meta.Namespace ∧ c.meta.Name = head.meta.Name ∧
      c.Spec.Image = head.Spec.ChildA ∧
      c.meta.OwnerReferences =
        [{ Kind := "Head", Name := head.meta.Name, UID := head.meta.UID,
           Controller := true, BlockOwnerDeletion := true }] ∧
      c.meta.Annotations = head.meta.Annotations ∧
      c.meta.Annotations.index traceKey = head.meta.Annotations.index traceKey ∧
      (HeadReconciler.Reconcile e w req).1.findChildA head.meta.key = some c := by
  obtain ⟨h1, h2, -, h4, -, h6, h7, -⟩ := he
  obtain ⟨ctx, hctx⟩ := h7 [(traceKey, head.meta.Annotations.index traceKey)]
  have hget := getHead_found h1 hh
  have hch := getChildA_absent h2 hc
  obtain ⟨hgen, -⟩ := generateChildFromHead_ok e head h6
  rw [head_pass_create e w req head ctx hget hdel h6 hch hctx, hgen]
  simp only [World.findChildA] at hc
  refine ⟨{ meta :=
              { Name := head.meta.Name
                Namespace := head.meta.Namespace
                Annotations := head.meta.Annotations
                OwnerReferences := [controllerReference "Head" head.meta] }
            Spec := { Image := head.Spec.ChildA } }, ?_, ?_, rfl, rfl, rfl, rfl, rfl, rfl, ?_⟩
  · simp [createChildA, h4, newCalls]
  · simp [createChildA, h4]
  · simp only [createChildA, h4, World.findChildA]
    rw [List.find?_append, hc]
    simp [ObjectMeta.key]

/-- Witness for C2: a Head `default/demo` with child image `x` in a cluster
without any ChildA. -/
theorem head_reconcile_creates_child_witness :
    ∃ c : ChildA,
      newCalls { heads := [demoHead "x" false] }
        (HeadReconciler.Reconcile okEnv { heads := [demoHead "x" false] } demoKey).1
          = [Call.createChildA c] ∧
      c.Spec.Image = "x" := by
  obtain ⟨c, h1, -, -, -, h5, -⟩ :=
    head_reconcile_creates_child okEnv { heads := [demoHead "x" false] } demoKey
      (demoHead "x" false) okEnv_allSucceed (by decide) (by decide) (by decide)
  exact ⟨c, h1, h5⟩

/-! ## Two-hop propagation (C4) -/

/-- C4. With a Head, its ChildA and the ChildA's Deployment stored under one
identity (Head and ChildA without deletion marker), `Head.Status.Ready` and
`ChildA.Status.Ready` both `b`, the Deployment's readiness `!b` and every
external call succeeding: the ChildA pass leaves the stored Heads untouched,
so `Head.Status.Ready` is still `b`, and the Head pass that follows sets it to
`!b`; both passes return no error.  Moreover no ChildA pass, in any world and
environment, changes the stored Heads. -/
theorem two_hop_propagation (e : Env) (w : World) (k : NamespacedName)
    (head : Head) (child : ChildA) (d : Deployment) (b : Bool)
    (he : e.AllSucceed)
    (hh : w.findHead k = some head)
    (hc : w.findChildA k = some child)
    (hd : w.findDeployment k = some d)
    (hdelh : head.meta.DeletionTimestamp = none)
    (hdelc : child.meta.DeletionTimestamp = none)
    (hhb : head.Status.Ready = b)
    (hcb : child.Status.Ready = b)
    (hdb : isReady d = !b) :
    (ChildAReconciler.Reconcile e w k).2 = none ∧
    (ChildAReconciler.Reconcile e w k).1.heads = w.heads ∧
    ((ChildAReconciler.Reconcile e w k).1.findHead k).map (fun h => h.Status.Ready) = some b ∧
    (HeadReconciler.Reconcile e (ChildAReconciler.Reconcile e w k).1 k).2 = none ∧
    ((HeadReconciler.Reconcile e (ChildAReconciler.Reconcile e w k).1 k).1.findHead k).map
      (fun h => h.Status.Ready) = some (!b) ∧
    (∀ (e1 : Env) (w1 : World) (r1 : Request),
      (ChildAReconciler.Reconcile e1 w1 r1).1.heads = w1.heads) := by
  obtain ⟨h1, h2, h3, -, h5, h6, h7, -⟩ := he
  have hkc : child.meta.key = k := findChildA_key hc
  have hkh : head.meta.key = k := findHead_key hh
  obtain ⟨ctx, hctx⟩ := h7 [(traceKey, child.meta.Annotations.index traceKey)]
  obtain ⟨ctx2, hctx2⟩ := h7 [(traceKey, head.meta.Annotations.index traceKey)]
  have hne : (isReady d != child.Status.Ready) = true := by
    rw [hdb, hcb]
    cases b <;> rfl
  have hdep : getDeployment e w child.meta.key = .ok d := by
    rw [hkc]
    exact getDeployment_found h3 hd
  have p1 := childA_pass_update e w k child d ctx (getChildA_found h2 hc) hdelc h6 hdep hne hctx
  simp only [updateChildAStatus, h5] at p1
  rw [p1]
  have hh1 : World.findHead
      { heads := w.heads
        childas := w.childas.map (fun s =>
          if s.meta.key = child.meta.key then { s with Status := { Ready := isReady d } } else s)
        deployments := w.deployments
        calls := w.calls ++
          [Call.updateChildAStatus { child with Status := { Ready := isReady d } }]
        started := w.started ++
          [{ id := w.started.length
             operation := "child-ready-" ++ toString (isReady d)
             parent := some ctx }]
        finished := w.finished ++ [w.started.length] } k = some head := hh
  have hc1 : World.findChildA
      { heads := w.heads
        childas := w.childas.map (fun s =>
          if s.meta.key = child.meta.key then { s with Status := { Ready := isReady d } } else s)
        deployments := w.deployments
        calls := w.calls ++
          [Call.updateChildAStatus { child with Status := { Ready := isReady d } }]
        started := w.started ++
          [{ id := w.started.length
             operation := "child-ready-" ++ toString (isReady d)
             parent := some ctx }]
        finished := w.finished ++ [w.started.length] } head.meta.key
        = some { child with Status := { Ready := isReady d } } := by
    simp only [World.findChildA, find_setChildAStatus]
    simp only [World.findChildA] at hc
    simp [hkh, hc]
  have hne2 : (({ child with Status := { Ready := isReady d } } : ChildA).Status.Ready
      != head.Status.Ready) = true := by
    simp only [hdb, hhb]
    cases b <;> rfl
  have p2 := head_pass_update e _ k head _ ctx2 (getHead_found h1 hh1) hdelh h6
    (getChildA_found h2 hc1) hne2 hctx2
  simp only [updateHeadStatus, h5] at p2
  refine ⟨rfl, rfl, ?_, ?_, ?_, childA_reconcile_heads⟩
  · rw [hh1, ← hhb]
    rfl
  · rw [p2]
  · rw [p2]
    simp only [World.findHead, find_setHeadStatus]
    simp only [World.findHead] at hh
    simp [hh, hdb]

/-- Witness for C4: everything reports ready while the Deployment has lost
two of its three replicas. -/
theorem two_hop_propagation_witness :
    ((ChildAReconciler.Reconcile okEnv
        { heads := [demoHead "x" true], childas := [demoChild "x" true],
          deployments := [demoDeployment "x" 3 1] } demoKey).1.findHead demoKey).map
      (fun h => h.Status.Ready) = some true ∧
    ((HeadReconciler.Reconcile okEnv (ChildAReconciler.Reconcile okEnv
        { heads := [demoHead "x" true], childas := [demoChild "x" true],
          deployments := [demoDeployment "x" 3 1] } demoKey).1 demoKey).1.findHead demoKey).map
      (fun h => h.Status.Ready) = some (!true) :=
  have h := two_hop_propagation okEnv
    { heads := [demoHead "x" true], childas := [demoChild "x" true],
      deployments := [demoDeployment "x" 3 1] } demoKey
    (demoHead "x" true) (demoChild "x" true) (demoDeployment "x" 3 1) true
    okEnv_allSucceed (by decide) (by decide) (by decide) (by decide) (by decide)
    (by decide) (by decide) (by decide)
  ⟨h.2.2.1, h.2.2.2.2.1⟩

/-! ## Deletion short-circuit (C5) -/

/-- C5. For both reconcilers: when the requested resource is fetched
successfully and carries a deletion timestamp, the pass returns no error and
issues no client call (no create, no status update), in fact leaves the
world as it was, whatever the statuses and whether or not the owned child is
stored. -/
theorem deletion_short_circuit (e : Env) (w : World) (req : Request) :
    (∀ child, getChildA e w req = .ok child → child.meta.DeletionTimestamp.isSome = true →
      (ChildAReconciler.Reconcile e w req).2 = none ∧
      newCalls w (ChildAReconciler.Reconcile e w req).1 = [] ∧
      (ChildAReconciler.Reconcile e w req).1 = w) ∧
    (∀ head, getHead e w req = .ok head → head.meta.DeletionTimestamp.isSome = true →
      (HeadReconciler.Reconcile e w req).2 = none ∧
      newCalls w (HeadReconciler.Reconcile e w req).1 = [] ∧
      (HeadReconciler.Reconcile e w req).1 = w) := by
  constructor
  · intro child hget hdel
    rw [childA_pass_deleted e w req child hget hdel]
    exact ⟨rfl, newCalls_self w, rfl⟩
  · intro head hget hdel
    rw [head_pass_deleted e w req head hget hdel]
    exact ⟨rfl, newCalls_self w, rfl⟩

/-- Witness for C5: both reconcilers on `deletingWorld`, where the Head's
status differs from its child's and the ChildA's Deployment is missing. -/
theorem deletion_short_circuit_witness :
    newCalls deletingWorld (ChildAReconciler.Reconcile okEnv deletingWorld demoKey).1 = [] ∧
    newCalls deletingWorld (HeadReconciler.Reconcile okEnv deletingWorld demoKey).1 = [] :=
  ⟨((deletion_short_circuit okEnv deletingWorld demoKey).1 deletingChild rfl (by decide)).2.1,
   ((deletion_short_circuit okEnv deletingWorld demoKey).2 deletingHead rfl (by decide)).2.1⟩

/-! ## Idempotence of the ChildA loop (C3) -/

/-- C3, counterexample. On `orphanReadyWorld` with every external call
succeeding, the first pass creates the Deployment (stored with zero
replicas), and the second pass, run right after it, issues a status update of
the ChildA (ready becomes false): the second pass does mutate. -/
theorem childA_second_pass_mutates :
    okEnv.AllSucceed ∧
    newCalls orphanReadyWorld (ChildAReconciler.Reconcile okEnv orphanReadyWorld demoKey).1
      = [Call.createDeployment (generateDeploymentFromChild okEnv (demoChild "nginx" true)).1] ∧
    newCalls (ChildAReconciler.Reconcile okEnv orphanReadyWorld demoKey).1
      (ChildAReconciler.Reconcile okEnv
        (ChildAReconciler.Reconcile okEnv orphanReadyWorld demoKey).1 demoKey).1
      = [Call.updateChildAStatus (demoChild "nginx" false)] :=
  ⟨okEnv_allSucceed, by decide, by decide⟩

theorem second_pass_of_fixed (e : Env) (w : World) (req : Request) (r : Option Err)
    (h : ChildAReconciler.Reconcile e w req = (w, r)) :
    newCalls (ChildAReconciler.Reconcile e w req).1
      (ChildAReconciler.Reconcile e (ChildAReconciler.Reconcile e w req).1 req).1 = [] := by
  simp only [h, newCalls_self]

theorem second_pass_after_update (e : Env) (w : World) (req : Request) (child : ChildA)
    (d : Deployment)
    (he : e.AllSucceed)
    (hc : w.findChildA req = some child)
    (hdel : child.meta.DeletionTimestamp = none)
    (hd : w.findDeployment req = some d)
    (hne : (isReady d != child.Status.Ready) = true) :
    newCalls (ChildAReconciler.Reconcile e w req).1
      (ChildAReconciler.Reconcile e (ChildAReconciler.Reconcile e w req).1 req).1 = [] := by
  obtain ⟨-, h2, h3, -, h5, h6, h7, -⟩ := he
  have hkey : child.meta.key = req := findChildA_key hc
  obtain ⟨ctx, hctx⟩ := h7 [(traceKey, child.meta.Annotations.index traceKey)]
  have hdep : getDeployment e w child.meta.key = .ok d := by
    rw [hkey]
    exact getDeployment_found h3 hd
  have p1 := childA_pass_update e w req child d ctx (getChildA_found h2 hc) hdel h6 hdep hne hctx
  simp only [updateChildAStatus, h5] at p1
  rw [p1]
  have hc1 : World.findChildA
      { heads := w.heads
        childas := w.childas.map (fun s =>
          if s.meta.key = child.meta.key then { s with Status := { Ready := isReady d } } else s)
        deployments := w.deployments
        calls := w.calls ++
          [Call.updateChildAStatus { child with Status := { Ready := isReady d } }]
        started := w.started ++
          [{ id := w.started.length
             operation := "child-ready-" ++ toString (isReady d)
             parent := some ctx }]
        finished := w.finished ++ [w.started.length] } req
        = some { child with Status := { Ready := isReady d } } := by
    simp only [World.findChildA, find_setChildAStatus]
    simp only [World.findChildA] at hc
    simp [hc, hkey]
  have p2 := childA_pass_unchanged e _ req _ d (getChildA_found h2 hc1) hdel h6 hdep rfl
  rw [p2]
  exact newCalls_self _

theorem second_pass_after_create (e : Env) (w : World) (req : Request) (child : ChildA)
    (he : e.AllSucceed)
    (hc : w.findChildA req = some child)
    (hdel : child.meta.DeletionTimestamp = none)
    (hd : w.findDeployment req = none) :
    newCalls w (ChildAReconciler.Reconcile e w req).1
      = [Call.createDeployment (generateDeploymentFromChild e child).1] ∧
    newCalls (ChildAReconciler.Reconcile e w req).1
      (ChildAReconciler.Reconcile e (ChildAReconciler.Reconcile e w req).1 req).1
      = if child.Status.Ready = true
        then [Call.updateChildAStatus { child with Status := { Ready := false } }]
        else [] := by
  obtain ⟨-, h2, h3, h4, h5, h6, h7, -⟩ := he
  have hkey : child.meta.key = req := findChildA_key hc
  obtain ⟨ctx, hctx⟩ := h7 [(traceKey, child.meta.Annotations.index traceKey)]
  obtain ⟨expected, hgen, hk, -, hst⟩ := generateDeploymentFromChild_ok e child h6
  have hdep : getDeployment e w child.meta.key = .error .notFound := by
    rw [hkey]
    exact getDeployment_absent h3 hd
  have p1 := childA_pass_create e w req child ctx (getChildA_found h2 hc) hdel h6 hdep hctx
  simp only [createDeployment, h4, hgen] at p1
  rw [p1, hgen]
  have hrd : isReady expected = false := by
    simp [isReady, hst]
  have hc1 : World.findChildA
      { heads := w.heads
        childas := w.childas
        deployments := w.deployments ++ [expected]
        calls := w.calls ++ [Call.createDeployment expected]
        started := w.started ++
          [{ id := w.started.length, operation := "create-deploy", parent := some ctx }]
        finished := w.finished ++ [w.started.length] } req = some child := hc
  have hd1 : World.findDeployment
      { heads := w.heads
        childas := w.childas
        deployments := w.deployments ++ [expected]
        calls := w.calls ++ [Call.createDeployment expected]
        started := w.started ++
          [{ id := w.started.length, operation := "create-deploy", parent := some ctx }]
        finished := w.finished ++ [w.started.length] } child.meta.key = some expected := by
    simp only [World.findDeployment] at hd ⊢
    rw [List.find?_append, hkey, hd]
    simp [hk, hkey]
  refine ⟨?_, ?_⟩
  · simp [newCalls]
  · by_cases hr : child.Status.Ready = true
    · have hne : (isReady expected != child.Status.Ready) = true := by
        rw [hrd, hr]
        rfl
      have p2 := childA_pass_update e _ req child expected ctx (getChildA_found h2 hc1) hdel h6
        (getDeployment_found h3 hd1) hne hctx
      simp only [updateChildAStatus, h5] at p2
      rw [p2]
      simp [newCalls, hr, hrd]
    · have heq : isReady expected = child.Status.Ready := by
        rw [hrd]
        simpa using hr
      have p2 := childA_pass_unchanged e _ req child expected (getChildA_found h2 hc1) hdel h6
        (getDeployment_found h3 hd1) heq
      rw [p2]
      simp [newCalls, hr]

/-- C3, amended. With every external call succeeding and nothing else
touching the cluster, the second of two successive ChildA passes issues no
create; it issues no call at all when the first pass issued no create; and
when the first pass created the Deployment (ChildA stored without deletion
marker, Deployment missing) the second pass issues exactly one status update,
setting ready to false, if the stored `Status.Ready` was true, and nothing
otherwise. -/
theorem childA_second_pass_amended (e : Env) (w : World) (req : Request)
    (he : e.AllSucceed) :
    (∀ c ∈ newCalls (ChildAReconciler.Reconcile e w req).1
        (ChildAReconciler.Reconcile e (ChildAReconciler.Reconcile e w req).1 req).1,
      c.isCreate = false) ∧
    ((∀ c ∈ newCalls w (ChildAReconciler.Reconcile e w req).1, c.isCreate = false) →
      newCalls (ChildAReconciler.Reconcile e w req).1
        (ChildAReconciler.Reconcile e (ChildAReconciler.Reconcile e w req).1 req).1 = []) ∧
    (∀ child, w.findChildA req = some child → child.meta.DeletionTimestamp = none →
      w.findDeployment req = none →
      newCalls (ChildAReconciler.Reconcile e w req).1
        (ChildAReconciler.Reconcile e (ChildAReconciler.Reconcile e w req).1 req).1
        = if child.Status.Ready = true
          then [Call.updateChildAStatus { child with Status := { Ready := false } }]
          else []) := by
  have he0 := he
  obtain ⟨-, h2, h3, -, -, h6, -, -⟩ := he
  refine ⟨?_, ?_, fun child hc hdel hd => (second_pass_after_create e w req child he0 hc hdel hd).2⟩
  all_goals
    cases hc : w.findChildA req with
    | none =>
      have hq := second_pass_of_fixed e w req none
        (childA_pass_absent e w req (getChildA_absent h2 hc))
      simp [hq]
    | some child =>
      have hkey : child.meta.key = req := findChildA_key hc
      cases hdel : child.meta.DeletionTimestamp with
      | some t =>
        have hq := second_pass_of_fixed e w req none
          (childA_pass_deleted e w req child (getChildA_found h2 hc) (by simp [hdel]))
        simp [hq]
      | none =>
        cases hd : w.findDeployment req with
        | some d =>
          by_cases hne : (isReady d != child.Status.Ready) = true
          · have hq := second_pass_after_update e w req child d he0 hc hdel hd hne
            simp [hq]
          · have heq : isReady d = child.Status.Ready := by simpa using hne
            have hdep : getDeployment e w child.meta.key = .ok d := by
              rw [hkey]
              exact getDeployment_found h3 hd
            have hq := second_pass_of_fixed e w req none
              (childA_pass_unchanged e w req child d (getChildA_found h2 hc) hdel h6 hdep heq)
            simp [hq]
        | none =>
          obtain ⟨hq1, hq2⟩ := second_pass_after_create e w req child he0 hc hdel hd
          by_cases hr : child.Status.Ready = true <;> simp [hq1, hq2, hr, Call.isCreate]

/-- Witness for C3, amended: on a converged cluster (ChildA ready, Deployment
3/3) the second pass issues no call. -/
theorem childA_second_pass_amended_witness :
    newCalls (ChildAReconciler.Reconcile okEnv
        { childas := [demoChild "nginx" true], deployments := [demoDeployment "nginx" 3 3] }
        demoKey).1
      (ChildAReconciler.Reconcile okEnv (ChildAReconciler.Reconcile okEnv
        { childas := [demoChild "nginx" true], deployments := [demoDeployment "nginx" 3 3] }
        demoKey).1 demoKey).1 = [] :=
  (childA_second_pass_amended okEnv
    { childas := [demoChild "nginx" true], deployments := [demoDeployment "nginx" 3 3] }
    demoKey okEnv_allSucceed).2.1 (by decide)

/-! ## Convergence of the Deployment image (C6) -/

/-- C6, counterexample. On `staleImageWorld` with every external call
succeeding, after one ChildA pass the Deployment still runs `nginx:1`, not the
image `nginx:2` of the ChildA's spec. -/
theorem childA_reconcile_keeps_stale_image :
    okEnv.AllSucceed ∧
    staleImageWorld.findChildA demoKey = some (demoChild "nginx:2" false) ∧
    (demoChild "nginx:2" false).Spec.Image = "nginx:2" ∧
    ((ChildAReconciler.Reconcile okEnv staleImageWorld demoKey).1.findDeployment demoKey).bind
      Deployment.mainImage = some "nginx:1" :=
  ⟨okEnv_allSucceed, by decide, by decide, by decide⟩

/-- C6, amended. For a stored ChildA without deletion marker and every
external call succeeding: when no Deployment with the ChildA's identity is
stored, after one ChildA pass that Deployment is stored and the image of its
container `main` is the ChildA's `Spec.Image`; when such a Deployment is
already stored, the pass leaves the stored Deployments exactly as they were
(its image is not touched). -/
theorem childA_reconcile_image_amended (e : Env) (w : World) (req : Request) (child : ChildA)
    (he : e.AllSucceed)
    (hc : w.findChildA req = some child)
    (hdel : child.meta.DeletionTimestamp = none) :
    (w.findDeployment req = none →
      ∃ d, (ChildAReconciler.Reconcile e w req).1.findDeployment req = some d ∧
        d.meta.key = child.meta.key ∧ d.mainImage = some child.Spec.Image) ∧
    (∀ d, w.findDeployment req = some d →
      (ChildAReconciler.Reconcile e w req).1.deployments = w.deployments ∧
      (ChildAReconciler.Reconcile e w req).1.findDeployment req = some d) := by
  obtain ⟨-, h2, h3, h4, h5, h6, h7, -⟩ := he
  have hkey : child.meta.key = req := findChildA_key hc
  obtain ⟨ctx, hctx⟩ := h7 [(traceKey, child.meta.Annotations.index traceKey)]
  constructor
  · intro hd
    obtain ⟨expected, hgen, hk, hcont, -⟩ := generateDeploymentFromChild_ok e child h6
    have hdep : getDeployment e w child.meta.key = .error .notFound := by
      rw [hkey]
      exact getDeployment_absent h3 hd
    have p1 := childA_pass_create e w req child ctx (getChildA_found h2 hc) hdel h6 hdep hctx
    simp only [createDeployment, h4, hgen] at p1
    rw [p1]
    refine ⟨expected, ?_, hk, ?_⟩
    · simp only [World.findDeployment] at hd ⊢
      rw [List.find?_append, hd]
      simp [hk, hkey]
    · simp [Deployment.mainImage, hcont]
  · intro d hd
    have hdep : getDeployment e w child.meta.key = .ok d := by
      rw [hkey]
      exact getDeployment_found h3 hd
    by_cases hne : (isReady d != child.Status.Ready) = true
    · have p1 := childA_pass_update e w req child d ctx (getChildA_found h2 hc) hdel h6 hdep
        hne hctx
      simp only [updateChildAStatus, h5] at p1
      rw [p1]
      exact ⟨rfl, hd⟩
    · have heq : isReady d = child.Status.Ready := by simpa using hne
      rw [childA_pass_unchanged e w req child d (getChildA_found h2 hc) hdel h6 hdep heq]
      exact ⟨rfl, hd⟩

/-- Witness for C6, amended: a ChildA wanting `nginx:2` and no Deployment. -/
theorem childA_reconcile_image_amended_witness :
    ∃ d, (ChildAReconciler.Reconcile okEnv { childas := [demoChild "nginx:2" false] }
        demoKey).1.findDeployment demoKey = some d ∧
      d.meta.key = (demoChild "nginx:2" false).meta.key ∧
      d.mainImage = some (demoChild "nginx:2" false).Spec.Image :=
  (childA_reconcile_image_amended okEnv { childas := [demoChild "nginx:2" false] } demoKey
    (demoChild "nginx:2" false) okEnv_allSucceed (by decide) (by decide)).1 (by decide)

/-! ## Trace continuity of the defaulting hook (C7) -/

/-- C7. When the lookup of a stored copy of the Head succeeds (update path),
`Head.Default` returns the Head exactly as it was given, so its annotations
and the value under `uber-trace-id` are those of the input, and it changes
nothing in the world; hence any number of further `Default` calls on a stored
Head leave it, and the trace annotation it was stamped with, unchanged. -/
theorem default_keeps_trace_on_update (e : Env) (w : World) (r cur : Head)
    (hget : getHead e w r.meta.key = .ok cur) :
    Head.Default e w r = (w, r) ∧
    (Head.Default e w r).2.meta.Annotations = r.meta.Annotations ∧
    (Head.Default e w r).2.meta.Annotations.index traceKey = r.meta.Annotations.index traceKey ∧
    ∀ n, DefaultN e n w r = (w, r) ∧
      (DefaultN e n w r).2.meta.Annotations.index traceKey
        = r.meta.Annotations.index traceKey := by
  have h1 : Head.Default e w r = (w, r) := by
    simp [Head.Default, hget]
  have hn : ∀ n, DefaultN e n w r = (w, r) := by
    intro n
    induction n with
    | zero => rfl
    | succ n ih => simp only [DefaultN, h1, ih]
  refine ⟨h1, ?_, ?_, ?_⟩
  · rw [h1]
  · rw [h1]
  · intro n
    rw [hn n]
    exact ⟨rfl, rfl⟩

/-- Witness for C7: the Head stamped by a first `Default` call in an empty
cluster is stored; five further `Default` calls leave the stamped value
`trace-0` in place. -/
theorem default_keeps_trace_on_update_witness :
    (Head.Default okEnv {} freshHead).2.meta.Annotations.index traceKey = "trace-0" ∧
    (DefaultN okEnv 5 { heads := [(Head.Default okEnv {} freshHead).2] }
      (Head.Default okEnv {} freshHead).2).2.meta.Annotations.index traceKey = "trace-0" :=
  have h := (default_keeps_trace_on_update okEnv
    { heads := [(Head.Default okEnv {} freshHead).2] }
    (Head.Default okEnv {} freshHead).2 (Head.Default okEnv {} freshHead).2 rfl).2.2.2 5
  ⟨by decide, h.2.trans (by decide)⟩

/-! ## Failing trace extraction (C8) -/

/-- C8, counterexample. With the client succeeding and trace extraction
failing, a ChildA pass that is due to create the missing Deployment and a
Head pass that is due to create the missing ChildA both return the extraction
error and issue no client call. -/
theorem extraction_failure_is_fatal :
    (ChildAReconciler.Reconcile noParentEnv { childas := [demoChild "x" false] } demoKey).2
      = some (.other "opentracing: SpanContext not found in Extract carrier") ∧
    newCalls { childas := [demoChild "x" false] }
      (ChildAReconciler.Reconcile noParentEnv { childas := [demoChild "x" false] } demoKey).1
      = [] ∧
    (HeadReconciler.Reconcile noParentEnv { heads := [demoHead "x" false] } demoKey).2
      = some (.other "opentracing: SpanContext not found in Extract carrier") ∧
    newCalls { heads := [demoHead "x" false] }
      (HeadReconciler.Reconcile noParentEnv { heads := [demoHead "x" false] } demoKey).1
      = [] :=
  ⟨by decide, by decide, by decide, by decide⟩

/-- C8, amended. For each reconciler, in a pass where the resource is stored
without deletion marker, a mutation is due (the owned child is missing, or
its readiness differs from the resource's `Status.Ready`), the client calls
and `SetControllerReference` succeed and the extraction of the span context
from the resource's trace annotation fails with `err`: `Reconcile` returns
`err`, issues no create and no status update, starts no span and leaves the
world as it was. -/
theorem extraction_failure_aborts_pass (e : Env) (w : World) (req : Request) (err : Err)
    (hgh : e.getHeadErr = none) (hgc : e.getChildAErr = none) (hgd : e.getDeploymentErr = none)
    (hown : e.setControllerReferenceErr = none) :
    (∀ child, w.findChildA req = some child → child.meta.DeletionTimestamp = none →
      (w.findDeployment req = none ∨
        ∃ d, w.findDeployment req = some d ∧ isReady d ≠ child.Status.Ready) →
      e.extract [(traceKey, child.meta.Annotations.index traceKey)] = .error err →
      ChildAReconciler.Reconcile e w req = (w, some err) ∧
      newCalls w (ChildAReconciler.Reconcile e w req).1 = []) ∧
    (∀ head, w.findHead req = some head → head.meta.DeletionTimestamp = none →
      (w.findChildA req = none ∨
        ∃ c, w.findChildA req = some c ∧ c.Status.Ready ≠ head.Status.Ready) →
      e.extract [(traceKey, head.meta.Annotations.index traceKey)] = .error err →
      HeadReconciler.Reconcile e w req = (w, some err) ∧
      newCalls w (HeadReconciler.Reconcile e w req).1 = []) := by
  constructor
  · intro child hc hdel hdue hx
    have hkey : child.meta.key = req := findChildA_key hc
    have p : ChildAReconciler.Reconcile e w req = (w, some err) := by
      refine childA_pass_extract_fails e w req child (getDeployment e w child.meta.key) err
        (getChildA_found hgc hc) hdel hown rfl ?_ hx
      rw [hkey]
      rcases hdue with hd | ⟨d, hd, hne⟩
      · exact Or.inl (getDeployment_absent hgd hd)
      · exact Or.inr ⟨d, getDeployment_found hgd hd, by simpa using hne⟩
    rw [p]
    exact ⟨rfl, newCalls_self w⟩
  · intro head hh hdel hdue hx
    have hkey : head.meta.key = req := findHead_key hh
    have p : HeadReconciler.Reconcile e w req = (w, some err) := by
      refine head_pass_extract_fails e w req head (getChildA e w head.meta.key) err
        (getHead_found hgh hh) hdel hown rfl ?_ hx
      rw [hkey]
      rcases hdue with hc | ⟨c, hc, hne⟩
      · exact Or.inl (getChildA_absent hgc hc)
      · exact Or.inr ⟨c, getChildA_found hgc hc, by simpa using hne⟩
    rw [p]
    exact ⟨rfl, newCalls_self w⟩

/-- Witness for C8, amended: a ChildA whose Deployment reports 3/3 while the
ChildA is not ready (a status update is due), and a Head whose ChildA is
missing (a create is due), under `noParentEnv`. -/
theorem extraction_failure_aborts_pass_witness :
    ChildAReconciler.Reconcile noParentEnv
        { childas := [demoChild "x" false], deployments := [demoDeployment "x" 3 3] } demoKey
      = ({ childas := [demoChild "x" false], deployments := [demoDeployment "x" 3 3] },
          some (.other "opentracing: SpanContext not found in Extract carrier")) ∧
    HeadReconciler.Reconcile noParentEnv { heads := [demoHead "x" false] } demoKey
      = ({ heads := [demoHead "x" false] },
          some (.other "opentracing: SpanContext not found in Extract carrier")) :=
  ⟨((extraction_failure_aborts_pass noParentEnv
        { childas := [demoChild "x" false], deployments := [demoDeployment "x" 3 3] } demoKey
        (.other "opentracing: SpanContext not found in Extract carrier") rfl rfl rfl rfl).1
      (demoChild "x" false) (by decide) (by decide)
      (Or.inr ⟨demoDeployment "x" 3 3, by decide, by decide⟩) rfl).1,
   ((extraction_failure_aborts_pass noParentEnv { heads := [demoHead "x" false] } demoKey
        (.other "opentracing: SpanContext not found in Extract carrier") rfl rfl rfl rfl).2
      (demoHead "x" false) (by decide) (by decide) (Or.inl (by decide)) rfl).1⟩

/-! ## Span lifetime (C9) -/

/-- C9, the code at the failing inputs. When the guarded mutation fails, the
pass returns the error with one span started and none finished: for the
ChildA reconciler on a failing create and on a failing status update, and for
the Head reconciler on a failing create and on a failing status update.  (On
the same inputs with the mutation succeeding, one span is started and one
finished.) -/
theorem span_left_open_when_mutation_fails :
    ((ChildAReconciler.Reconcile createFailsEnv { childas := [demoChild "x" false] } demoKey).2
        = some (.other "connection refused") ∧
      (ChildAReconciler.Reconcile createFailsEnv { childas := [demoChild "x" false] }
        demoKey).1.started.length = 1 ∧
      (ChildAReconciler.Reconcile createFailsEnv { childas := [demoChild "x" false] }
        demoKey).1.finished.length = 0) ∧
    ((ChildAReconciler.Reconcile updateFailsEnv
        { childas := [demoChild "x" false], deployments := [demoDeployment "x" 3 3] } demoKey).2
        = some (.other "conflict") ∧
      (ChildAReconciler.Reconcile updateFailsEnv
        { childas := [demoChild "x" false], deployments := [demoDeployment "x" 3 3] }
        demoKey).1.started.length = 1 ∧
      (ChildAReconciler.Reconcile updateFailsEnv
        { childas := [demoChild "x" false], deployments := [demoDeployment "x" 3 3] }
        demoKey).1.finished.length = 0) ∧
    ((HeadReconciler.Reconcile createFailsEnv { heads := [demoHead "x" false] } demoKey).2
        = some (.other "connection refused") ∧
      (HeadReconciler.Reconcile createFailsEnv { heads := [demoHead "x" false] }
        demoKey).1.started.length = 1 ∧
      (HeadReconciler.Reconcile createFailsEnv { heads := [demoHead "x" false] }
        demoKey).1.finished.length = 0) ∧
    ((HeadReconciler.Reconcile updateFailsEnv
        { heads := [demoHead "x" false], childas := [demoChild "x" true] } demoKey).2
        = some (.other "conflict") ∧
      (HeadReconciler.Reconcile updateFailsEnv
        { heads := [demoHead "x" false], childas := [demoChild "x" true] }
        demoKey).1.started.length = 1 ∧
      (HeadReconciler.Reconcile updateFailsEnv
        { heads := [demoHead "x" false], childas := [demoChild "x" true] }
        demoKey).1.finished.length = 0) ∧
    ((ChildAReconciler.Reconcile okEnv { childas := [demoChild "x" false] }
        demoKey).1.started.length = 1 ∧
      (ChildAReconciler.Reconcile okEnv { childas := [demoChild "x" false] }
        demoKey).1.finished.length = 1) :=
  ⟨⟨by decide, by decide, by decide⟩, ⟨by decide, by decide, by decide⟩,
   ⟨by decide, by decide, by decide⟩, ⟨by decide, by decide, by decide⟩,
   ⟨by decide, by decide⟩⟩

/-! ## What the defaulting hook writes on the create path (C10) -/

/-- C10, the code at the failing input. On the create path (empty cluster,
injection succeeding) `Head.Default` stamps the injected context under
`uber-trace-id` and keeps name, namespace, spec and status, but the Head's
own annotation `team` is gone: the annotations are the single trace entry. -/
theorem default_drops_other_annotations :
    getHead okEnv {} annotatedHead.meta.key = .error .notFound ∧
    annotatedHead.meta.Annotations.lookup "team" = some "payments" ∧
    (Head.Default okEnv {} annotatedHead).2.meta.Annotations.lookup "team" = none ∧
    (Head.Default okEnv {} annotatedHead).2.meta.Annotations = [("uber-trace-id", "trace-0")] ∧
    (Head.Default okEnv {} annotatedHead).2.meta.Name = annotatedHead.meta.Name ∧
    (Head.Default okEnv {} annotatedHead).2.meta.Namespace = annotatedHead.meta.Namespace ∧
    (Head.Default okEnv {} annotatedHead).2.Spec = annotatedHead.Spec ∧
    (Head.Default okEnv {} annotatedHead).2.Status = annotatedHead.Status :=
  ⟨rfl, by decide, by decide, by decide, by decide, by decide, by decide, by decide⟩

end TracingPoc
